import Mathlib

/-!
Verification development for the note-to-study-material application
(flashcard/quiz generator).  The definitions below are shallow embeddings
of the TypeScript source: pure functions are translated directly, stateful
code (Firestore transactions, the pipeline orchestrator, file cleanup) is
modelled by explicit state passing, and machine numbers are modelled by
`Nat`/`Int` (JavaScript numbers act as exact integers on all values these
functions handle).
-/

set_option maxRecDepth 8192

namespace FlashQuiz

/-- JavaScript `Math.round` applied to the non-negative rational
`num / den` (with `den > 0`): `round(x) = floor(x + 1/2)`, computed in
integer arithmetic as `(2*num + den) / (2*den)`. -/
def jsRound (num den : Nat) : Nat := (2 * num + den) / (2 * den)

/-! ## Mastery / session scoring (flashcardHelpers) -/

/-- Element of the ephemeral per-session result list (`SessionResult` in
types/index.ts). -/
structure SessionResult where
  cardIndex : Nat
  wasCorrect : Bool
  previousConfidence : Int
  newConfidence : Int
deriving DecidableEq, Repr

/-- Aggregated statistics of a review session (`SessionStats`). -/
structure SessionStats where
  know : Nat
  learning : Nat
  accuracy : Nat
deriving DecidableEq, Repr

/-- Embedding of `calculateSessionStats` (flashcard helper utilities).
The source iterates with `forEach` over three mutable counters
`know`, `learning`, `correct`; that loop is embedded as a `foldl` over the
triple `(know, learning, correct)`. -/
def calculateSessionStats (sessionResults : List SessionResult) : SessionStats :=
  if sessionResults.length = 0 then
    { know := 0, learning := 0, accuracy := 0 }
  else
    let counts := sessionResults.foldl
      (fun (acc : Nat × Nat × Nat) result =>
        if result.wasCorrect || result.newConfidence == 5 then
          (acc.1 + 1, acc.2.1, acc.2.2 + 1)
        else
          (acc.1, acc.2.1 + 1, acc.2.2))
      (0, 0, 0)
    { know := counts.1
      learning := counts.2.1
      accuracy := jsRound (counts.2.2 * 100) sessionResults.length }

/-- Embedding of `updateCardConfidence` (flashcard helper utilities). -/
def updateCardConfidence (currentLevel : Int) (isCorrect : Bool) : Int :=
  if isCorrect then
    min 5 (currentLevel + 1)
  else
    max 0 (currentLevel - 1)

/-! ## Diagram classifier (diagramDetector) -/

/-- Whitespace in the sense of the JavaScript regexp class `\s`
(restricted to the ASCII range, which is all the code paths in question
produce). -/
def isJsSpace (c : Char) : Bool :=
  c = ' ' || c = '\t' || c = '\n' || c = '\r' || c = '\x0b' || c = '\x0c'

/-- ASCII lower-casing, the effect of JavaScript `toLowerCase` on the
MIME-type strings this code compares. -/
def jsToLower (s : String) : String := ⟨s.data.map Char.toLower⟩

/-- Counts maximal runs of non-whitespace characters: the value of
JavaScript `text.trim().split(/\s+/).filter(w => w.length > 0).length`.
The flag records whether the previous character was inside a word. -/
def countWordsAux : Bool → List Char → Nat
  | _, [] => 0
  | prevInWord, c :: rest =>
    if isJsSpace c then countWordsAux false rest
    else (if prevInWord then 0 else 1) + countWordsAux true rest

/-- Word count of a string, as computed inside `shouldUseDiagramUnderstanding`. -/
def countWords (s : String) : Nat := countWordsAux false s.data

/-- The image MIME types recognised by the diagram classifier. -/
def imageTypes : List String :=
  ["image/jpeg", "image/jpg", "image/png", "image/webp", "image/gif"]

/-- Embedding of `shouldUseDiagramUnderstanding` (diagramDetector). -/
def shouldUseDiagramUnderstanding (fileType extractedText : String) : Bool :=
  if imageTypes.contains (jsToLower fileType) then
    countWords extractedText < 50
  else
    false

/-- The predicate the session-statistics loop tests on each result:
`result.wasCorrect || result.newConfidence === 5`. -/
def sessionKnowP (r : SessionResult) : Bool := r.wasCorrect || r.newConfidence == 5

theorem sessionFold_eq (l : List SessionResult) (a b c : Nat) :
    l.foldl
      (fun (acc : Nat × Nat × Nat) result =>
        if result.wasCorrect || result.newConfidence == 5 then
          (acc.1 + 1, acc.2.1, acc.2.2 + 1)
        else
          (acc.1, acc.2.1 + 1, acc.2.2)) (a, b, c) =
    (a + l.countP sessionKnowP,
     b + l.countP (fun r => !sessionKnowP r),
     c + l.countP sessionKnowP) := by
  induction l generalizing a b c with
  | nil => simp
  | cons r rest ih =>
    by_cases h : sessionKnowP r
    · simp only [List.foldl_cons, sessionKnowP] at h ⊢
      rw [h, if_pos rfl, ih, List.countP_cons, List.countP_cons]
      simp [sessionKnowP, h]
      omega
    · simp only [List.foldl_cons, sessionKnowP, Bool.not_eq_true] at h ⊢
      rw [h, if_neg (by simp), ih, List.countP_cons, List.countP_cons]
      simp [sessionKnowP, h]
      omega

/-- C1 (amended): for every list of session results, `know` counts the
results with `wasCorrect` true or `newConfidence` equal to 5, `learning`
counts the rest, and `accuracy` equals `round(100 × correctCount / total)`
where `correctCount` counts the results with `wasCorrect` true OR
`newConfidence` equal to 5 (the code increments its `correct` counter in
the same branch as `know`, not only on `wasCorrect`); an empty results
list yields all zeros. -/
theorem calculateSessionStats_spec (results : List SessionResult) :
    (calculateSessionStats results).know = results.countP sessionKnowP ∧
    (calculateSessionStats results).learning
      = results.countP (fun r => !sessionKnowP r) ∧
    (calculateSessionStats results).accuracy
      = (if results.length = 0 then 0
         else jsRound (results.countP sessionKnowP * 100) results.length) ∧
    calculateSessionStats [] = ⟨0, 0, 0⟩ := by
  unfold calculateSessionStats
  rcases results with _ | ⟨r, rest⟩
  · simp
  · rw [sessionFold_eq]
    simp

/-- C1 counterexample: on the single result with `wasCorrect = false` and
`newConfidence = 5`, the code computes accuracy 100, while the claimed
formula (counting `wasCorrect` only) predicts 0. -/
theorem calculateSessionStats_accuracy_claim_false :
    (calculateSessionStats
        [{ cardIndex := 0, wasCorrect := false,
           previousConfidence := 5, newConfidence := 5 }]).accuracy = 100 ∧
    jsRound ((List.countP (fun r => r.wasCorrect)
        [({ cardIndex := 0, wasCorrect := false,
            previousConfidence := 5, newConfidence := 5 } : SessionResult)]) * 100)
        (List.length
          [({ cardIndex := 0, wasCorrect := false,
              previousConfidence := 5, newConfidence := 5 } : SessionResult)]) = 0 := by
  decide

/-- C8: `updateCardConfidence` equals `min(5, currentLevel+1)` on a correct
answer and `max(0, currentLevel-1)` on an incorrect one; for every
`currentLevel ∈ [0,5]` the result stays in `[0,5]`, saturating at the
boundaries rather than wrapping. -/
theorem updateCardConfidence_spec (currentLevel : Int)
    (h0 : 0 ≤ currentLevel) (h5 : currentLevel ≤ 5) :
    updateCardConfidence currentLevel true = min 5 (currentLevel + 1) ∧
    updateCardConfidence currentLevel false = max 0 (currentLevel - 1) ∧
    (∀ isCorrect : Bool,
      0 ≤ updateCardConfidence currentLevel isCorrect ∧
      updateCardConfidence currentLevel isCorrect ≤ 5) ∧
    updateCardConfidence 5 true = 5 ∧
    updateCardConfidence 0 false = 0 := by
  refine ⟨rfl, rfl, ?_, by decide, by decide⟩
  intro isCorrect
  cases isCorrect <;>
    simp only [updateCardConfidence, if_true, if_false, min_def, max_def,
      Bool.false_eq_true, ite_false, ite_true] <;>
    constructor <;> split <;> omega

/-- Witness for C8 at currentLevel 3 and at the saturating boundary. -/
theorem updateCardConfidence_spec_witness :
    updateCardConfidence 3 true = min 5 (3 + 1) ∧
    updateCardConfidence 5 true = 5 :=
  ⟨(updateCardConfidence_spec 3 (by decide) (by decide)).1,
   (updateCardConfidence_spec 3 (by decide) (by decide)).2.2.2.1⟩

/-- C7: the diagram classifier is a pure function returning true exactly
when the (lower-cased) file type is one of the image MIME types and the
whitespace-separated word count of the extracted text is strictly below
50; every non-image type (PDF in particular) yields false; an image with
10 words classifies true and one with 80 words classifies false. -/
theorem shouldUseDiagramUnderstanding_spec :
    (∀ fileType extractedText,
      shouldUseDiagramUnderstanding fileType extractedText = true ↔
        (imageTypes.contains (jsToLower fileType) = true ∧
         countWords extractedText < 50)) ∧
    (∀ fileType extractedText,
      imageTypes.contains (jsToLower fileType) = false →
      shouldUseDiagramUnderstanding fileType extractedText = false) ∧
    (∀ extractedText,
      shouldUseDiagramUnderstanding "application/pdf" extractedText = false) ∧
    (∀ fileType extractedText,
      imageTypes.contains (jsToLower fileType) = true →
      countWords extractedText = 10 →
      shouldUseDiagramUnderstanding fileType extractedText = true) ∧
    (∀ fileType extractedText,
      imageTypes.contains (jsToLower fileType) = true →
      countWords extractedText = 80 →
      shouldUseDiagramUnderstanding fileType extractedText = false) := by
  have pdfNotImage : imageTypes.contains (jsToLower "application/pdf") = false := by
    decide
  refine ⟨?_, ?_, ?_, ?_, ?_⟩
  · intro ft txt
    unfold shouldUseDiagramUnderstanding
    cases hc : imageTypes.contains (jsToLower ft)
    · have hm : jsToLower ft ∉ imageTypes := by simpa using hc
      simp [hc, hm]
    · have hm : jsToLower ft ∈ imageTypes := by simpa using hc
      simp [hc, hm]
  · intro ft txt h
    have hm : jsToLower ft ∉ imageTypes := by simpa using h
    simp [shouldUseDiagramUnderstanding, hm]
  · intro txt
    have hm : jsToLower "application/pdf" ∉ imageTypes := by simpa using pdfNotImage
    simp [shouldUseDiagramUnderstanding, hm]
  · intro ft txt h hw
    have hm : jsToLower ft ∈ imageTypes := by simpa using h
    simp [shouldUseDiagramUnderstanding, hm, hw]
  · intro ft txt h hw
    have hm : jsToLower ft ∈ imageTypes := by simpa using h
    simp [shouldUseDiagramUnderstanding, hm, hw]

/-- Witness for C7: a PNG with 10 words routes to diagram understanding,
one with 80 words does not. -/
theorem shouldUseDiagramUnderstanding_spec_witness :
    shouldUseDiagramUnderstanding "image/png" "a b c d e f g h i j" = true ∧
    shouldUseDiagramUnderstanding "image/png"
      "a a a a a a a a a a a a a a a a a a a a a a a a a a a a a a a a a a a a a a a a a a a a a a a a a a a a a a a a a a a a a a a a a a a a a a a a a a a a a a a a" = false :=
  ⟨shouldUseDiagramUnderstanding_spec.2.2.2.1 "image/png" "a b c d e f g h i j"
      (by decide) (by decide),
   shouldUseDiagramUnderstanding_spec.2.2.2.2 "image/png"
      "a a a a a a a a a a a a a a a a a a a a a a a a a a a a a a a a a a a a a a a a a a a a a a a a a a a a a a a a a a a a a a a a a a a a a a a a a a a a a a a a"
      (by decide) (by decide)⟩

/-! ## Document chunker (pdfSplitter) -/

/-- Document AI page limit used by the splitter. -/
def MAX_PAGES_PER_CHUNK : Nat := 15

/-- A chunk produced by the splitter: the temporary file it was saved to
and the pages it carries.  The source returns only the paths; the page
content of the file at each path is carried here so that both views of
the function can be reasoned about. -/
structure PdfChunk (α : Type) where
  path : String
  pages : List α

/-- Name of a chunk file, following the source template
`baseFileName_chunk_{chunkIndex+1}_of_{numChunks}_{Date.now()}.pdf`. -/
def chunkFileName (baseFileName : String) (chunkIndex numChunks ts : Nat) : String :=
  baseFileName ++ "_chunk_" ++ toString (chunkIndex + 1) ++ "_of_" ++
    toString numChunks ++ "_" ++ toString ts ++ ".pdf"

/-- Embedding of `splitPdfIntoChunks` (pdfSplitter.ts).  The document is
its list of pages; `baseFileName` stands for `path.basename(filePath, ".pdf")`
and `ts` for `Date.now()`.  `Math.ceil(pageCount / MAX)` is
`(pageCount + MAX - 1) / MAX` in exact integer arithmetic. -/
def splitPdfIntoChunks {α : Type} (filePath tempDir baseFileName : String)
    (ts : Nat) (pages : List α) : List (PdfChunk α) :=
  if pages.length ≤ MAX_PAGES_PER_CHUNK then
    [⟨filePath, pages⟩]
  else
    let numChunks := (pages.length + MAX_PAGES_PER_CHUNK - 1) / MAX_PAGES_PER_CHUNK
    (List.range numChunks).map fun chunkIndex =>
      { path := tempDir ++ "/" ++ chunkFileName baseFileName chunkIndex numChunks ts
        pages := (pages.drop (chunkIndex * MAX_PAGES_PER_CHUNK)).take MAX_PAGES_PER_CHUNK }

/-- Reference chunking of a list into successive blocks of 15. -/
def chunked {α : Type} (l : List α) : List (List α) :=
  if h : l.length = 0 then []
  else l.take 15 :: chunked (l.drop 15)
termination_by l.length
decreasing_by
  simp only [List.length_drop]
  omega

theorem chunked_flatten {α : Type} (l : List α) : (chunked l).flatten = l := by
  induction l using chunked.induct with
  | case1 l h =>
    rw [chunked.eq_def, dif_pos h]
    simp [List.length_eq_zero.mp h]
  | case2 l h ih =>
    rw [chunked.eq_def, dif_neg h, List.flatten_cons, ih, List.take_append_drop]

theorem range_map_eq_chunked {α : Type} (l : List α) :
    (List.range ((l.length + 14) / 15)).map (fun i => (l.drop (i * 15)).take 15)
      = chunked l := by
  induction l using chunked.induct with
  | case1 l h =>
    rw [chunked.eq_def, dif_pos h]
    simp [h]
  | case2 l h ih =>
    have hn : (l.length + 14) / 15 = ((l.drop 15).length + 14) / 15 + 1 := by
      simp only [List.length_drop]; omega
    rw [chunked.eq_def, dif_neg h, hn, List.range_succ_eq_map, List.map_cons,
      List.map_map]
    refine congrArg₂ _ (by simp) ?_
    rw [← ih]
    refine List.map_congr_left fun i _ => ?_
    simp only [Function.comp_apply, List.drop_drop]
    congr 2
    omega

/-- C3: with the 15-page limit, a document of `N` pages is returned
unchanged as a single chunk when `N ≤ 15`; when `N > 15` the splitter
produces `ceil(N/15)` chunks, chunk `i` carrying the page range
`[i*15, min(i*15+15, N))`, every chunk holding at most 15 pages, and the
concatenation of the chunks reproducing the original pages in order. -/
theorem splitPdfIntoChunks_spec {α : Type} (filePath tempDir baseFileName : String)
    (ts : Nat) (pages : List α) :
    (pages.length ≤ 15 →
      splitPdfIntoChunks filePath tempDir baseFileName ts pages = [⟨filePath, pages⟩]) ∧
    (15 < pages.length →
      (splitPdfIntoChunks filePath tempDir baseFileName ts pages).length
          = (pages.length + 14) / 15 ∧
      (∀ i, i < (pages.length + 14) / 15 →
        ((splitPdfIntoChunks filePath tempDir baseFileName ts pages).map
            (fun c => c.pages))[i]? = some ((pages.drop (i * 15)).take 15)) ∧
      (∀ chunk ∈ splitPdfIntoChunks filePath tempDir baseFileName ts pages,
        chunk.pages.length ≤ 15) ∧
      ((splitPdfIntoChunks filePath tempDir baseFileName ts pages).map
          (fun c => c.pages)).flatten = pages) := by
  constructor
  · intro hle
    unfold splitPdfIntoChunks
    rw [if_pos (by simpa [MAX_PAGES_PER_CHUNK] using hle)]
  · intro hgt
    have hsplit : splitPdfIntoChunks filePath tempDir baseFileName ts pages
        = (List.range ((pages.length + 14) / 15)).map fun chunkIndex =>
            ({ path := tempDir ++ "/" ++
                  chunkFileName baseFileName chunkIndex ((pages.length + 14) / 15) ts
               pages := (pages.drop (chunkIndex * 15)).take 15 } : PdfChunk α) := by
      unfold splitPdfIntoChunks
      rw [if_neg (by simp [MAX_PAGES_PER_CHUNK]; omega)]
      rfl
    refine ⟨?_, ?_, ?_, ?_⟩
    · rw [hsplit]; simp
    · intro i hi
      rw [hsplit, List.map_map, List.getElem?_map, List.getElem?_range hi]
      rfl
    · intro chunk hmem
      rw [hsplit] at hmem
      rcases List.mem_map.mp hmem with ⟨i, _, rfl⟩
      simpa using List.length_take_le 15 (pages.drop (i * 15))
    · rw [hsplit, List.map_map]
      have : ((fun c => c.pages) ∘ fun chunkIndex =>
          ({ path := tempDir ++ "/" ++
                chunkFileName baseFileName chunkIndex ((pages.length + 14) / 15) ts
             pages := (pages.drop (chunkIndex * 15)).take 15 } : PdfChunk α))
          = fun i => (pages.drop (i * 15)).take 15 := rfl
      rw [this, range_map_eq_chunked, chunked_flatten]

/-- Witness for C3: a 10-page document is returned unchanged and the
38-page document of the spec scenario is reassembled from its 3 chunks. -/
theorem splitPdfIntoChunks_spec_witness :
    splitPdfIntoChunks "f.pdf" "/tmp" "f" 0 (List.range 10)
        = [⟨"f.pdf", List.range 10⟩] ∧
    ((splitPdfIntoChunks "f.pdf" "/tmp" "f" 0 (List.range 38)).map
        (fun c => c.pages)).flatten = List.range 38 ∧
    (splitPdfIntoChunks "f.pdf" "/tmp" "f" 0 (List.range 38)).length = 3 :=
  ⟨(splitPdfIntoChunks_spec "f.pdf" "/tmp" "f" 0 (List.range 10)).1 (by decide),
   ((splitPdfIntoChunks_spec "f.pdf" "/tmp" "f" 0 (List.range 38)).2 (by decide)).2.2.2,
   by rw [((splitPdfIntoChunks_spec "f.pdf" "/tmp" "f" 0 (List.range 38)).2
        (by decide)).1]; decide⟩

/-! ## Answer evaluator (quiz helper utilities) -/

/-- Word character in the sense of the regexp class `\w`. -/
def isWordChar (c : Char) : Bool := c.isAlphanum || c = '_'

/-- JavaScript `trim` on the character list: whitespace removed from both
ends. -/
def trimChars (l : List Char) : List Char :=
  ((l.dropWhile isJsSpace).reverse.dropWhile isJsSpace).reverse

/-- The effect of `replace(/\s+/g, " ")`: every whitespace run becomes a
single space; the flag records whether the previous character was
whitespace. -/
def collapseWsAux : Bool → List Char → List Char
  | _, [] => []
  | prevSpace, c :: rest =>
    if isJsSpace c then
      if prevSpace then collapseWsAux true rest
      else ' ' :: collapseWsAux true rest
    else c :: collapseWsAux false rest

/-- Embedding of `normalizeString` (quiz helper utilities): trim,
lower-case, remove `[^\w\s]` characters, collapse whitespace runs. -/
def normalizeString (s : String) : String :=
  ⟨collapseWsAux false
    (((trimChars s.data).map Char.toLower).filter
      (fun c => isWordChar c || isJsSpace c))⟩

/-- Tests whether the second list starts with the first one. -/
def leadsWith : List Char → List Char → Bool
  | [], _ => true
  | _ :: _, [] => false
  | a :: as, b :: bs => a == b && leadsWith as bs

/-- Helper for `jsIncludes`: scans the haystack left to right. -/
def jsIncludesAux (sub : List Char) : List Char → Bool
  | [] => sub.isEmpty
  | c :: rest => leadsWith sub (c :: rest) || jsIncludesAux sub rest

/-- JavaScript `s.includes(sub)` (substring containment; an empty needle
is contained in every string). -/
def jsIncludes (s sub : String) : Bool := jsIncludesAux sub.data s.data

/-- One step of the Levenshtein dynamic program: given the character
`c2 = str2[i-1]`, the remaining characters of `str1`, the suffix of row
`i-1` starting at column `j-1`, and the value `row[j-1]`, produces the
row entries from column `j` on.  The three candidates are substitution
(diagonal), insertion (left) and deletion (up), each plus one. -/
def levRowStep (c2 : Char) : List Char → List Nat → Nat → List Nat
  | [], _, _ => []
  | _ :: _, [], _ => []
  | c1 :: cs, p0 :: prest, left =>
    let up := match prest with
      | [] => 0
      | u :: _ => u
    let v := if c2 == c1 then p0 else Nat.min (Nat.min p0 left) up + 1
    v :: levRowStep c2 cs prest v

/-- Accumulator step for `levenshteinDistance`: carries the previous
matrix row and its index `i-1`, and builds row `i` (whose column 0 entry
is `i`). -/
def levFoldStep (s1 : List Char) (acc : List Nat × Nat) (c2 : Char) :
    List Nat × Nat :=
  let i := acc.2 + 1
  (i :: levRowStep c2 s1 acc.1 i, i)

/-- Embedding of `levenshteinDistance` (quiz helper utilities): row 0 is
`[0..str1.length]`, each following row is computed from the previous one,
and the result is `matrix[str2.length][str1.length]`, the last entry of
the final row. -/
def levenshteinDistance (str1 str2 : String) : Nat :=
  (str2.data.foldl (levFoldStep str1.data)
      (List.range (str1.data.length + 1), 0)).1.getLastD 0

/-- Embedding of `fuzzyMatch` (quiz helper utilities).  The emptiness
guard tests the raw strings (JavaScript truthiness); the containment
checks and the edit-distance threshold operate on the normalized
strings.  `Math.floor(maxLength * 0.1)` is `maxLength / 10` in exact
integer arithmetic. -/
def fuzzyMatch (userAnswer correctAnswer : String) : Bool :=
  if userAnswer.isEmpty || correctAnswer.isEmpty then false
  else
    let normalizedUser := normalizeString userAnswer
    let normalizedCorrect := normalizeString correctAnswer
    if normalizedUser == normalizedCorrect then true
    else if jsIncludes normalizedUser normalizedCorrect
        || jsIncludes normalizedCorrect normalizedUser then true
    else
      let distance := levenshteinDistance normalizedUser normalizedCorrect
      let maxLength := max normalizedUser.length normalizedCorrect.length
      let maxAllowedDistance := max 2 (maxLength / 10)
      decide (distance ≤ maxAllowedDistance)

theorem levFold_nil_acc (l : List Char) : ∀ k : Nat,
    l.foldl (levFoldStep []) ([k], k) = ([k + l.length], k + l.length) := by
  induction l with
  | nil => intro k; simp
  | cons c rest ih =>
    intro k
    rw [List.foldl_cons, show levFoldStep [] ([k], k) c = ([k + 1], k + 1) from rfl,
      ih (k + 1)]
    have harith : k + 1 + rest.length = k + (rest.length + 1) := by omega
    rw [List.length_cons, harith]

theorem levenshteinDistance_empty_left (s : String) :
    levenshteinDistance "" s = s.length := by
  unfold levenshteinDistance
  show (s.data.foldl (levFoldStep []) ([0], 0)).1.getLastD 0 = s.length
  rw [levFold_nil_acc s.data 0]
  show [0 + s.data.length].getLastD 0 = s.length
  rw [Nat.zero_add]
  rfl

theorem levenshteinDistance_empty_right (s : String) :
    levenshteinDistance s "" = s.length := by
  unfold levenshteinDistance
  show (List.range (s.data.length + 1)).getLastD 0 = s.length
  rw [List.range_succ, List.getLastD_concat]
  rfl

theorem leadsWith_refl (l : List Char) : leadsWith l l = true := by
  induction l with
  | nil => rfl
  | cons c rest ih => simp [leadsWith, ih]

theorem jsIncludesAux_nil_sub (l : List Char) : jsIncludesAux [] l = true := by
  cases l <;> simp [jsIncludesAux, leadsWith, List.isEmpty]

theorem jsIncludesAux_refl (l : List Char) : jsIncludesAux l l = true := by
  cases l with
  | nil => rfl
  | cons c rest => simp [jsIncludesAux, leadsWith_refl]

/-- C5 (amended): the allowed Levenshtein distance between the two
normalized strings is `max(2, floor(maxLen × 0.1))`.  Any pair whose
normalized forms differ by exactly `floor(maxLen × 0.1)` edits with
`maxLen ≥ 20` matches; a pair differing by `floor(maxLen × 0.1) + 3`
edits fails to match PROVIDED neither normalized string contains the
other as a substring (the containment shortcut otherwise returns a match
regardless of the distance). -/
theorem fuzzyMatch_threshold (userAnswer correctAnswer : String) :
    (levenshteinDistance (normalizeString userAnswer) (normalizeString correctAnswer)
        = max (normalizeString userAnswer).length
            (normalizeString correctAnswer).length / 10 →
      20 ≤ max (normalizeString userAnswer).length
              (normalizeString correctAnswer).length →
      fuzzyMatch userAnswer correctAnswer = true) ∧
    (levenshteinDistance (normalizeString userAnswer) (normalizeString correctAnswer)
        = max (normalizeString userAnswer).length
            (normalizeString correctAnswer).length / 10 + 3 →
      jsIncludes (normalizeString userAnswer) (normalizeString correctAnswer) = false →
      jsIncludes (normalizeString correctAnswer) (normalizeString userAnswer) = false →
      fuzzyMatch userAnswer correctAnswer = false) := by
  constructor
  · intro hd hm
    by_cases hue : userAnswer.isEmpty
    · exfalso
      have he : userAnswer = "" := (String.isEmpty_iff _).mp hue
      subst he
      rw [show normalizeString "" = "" from rfl] at hd hm
      rw [levenshteinDistance_empty_left] at hd
      rw [show ("" : String).length = 0 from rfl] at hd hm
      omega
    · by_cases hce : correctAnswer.isEmpty
      · exfalso
        have he : correctAnswer = "" := (String.isEmpty_iff _).mp hce
        subst he
        rw [show normalizeString "" = "" from rfl] at hd hm
        rw [levenshteinDistance_empty_right] at hd
        rw [show ("" : String).length = 0 from rfl] at hd hm
        omega
      · have hue' : userAnswer.isEmpty = false := by simpa using hue
        have hce' : correctAnswer.isEmpty = false := by simpa using hce
        simp only [fuzzyMatch, hue', hce', Bool.or_self]
        rw [if_neg (by simp)]
        split
        · rfl
        · split
          · rfl
          · simp only [decide_eq_true_eq]
            omega
  · intro hd hi1 hi2
    by_cases hue : userAnswer.isEmpty
    · unfold fuzzyMatch
      rw [hue, Bool.true_or, if_pos rfl]
    · by_cases hce : correctAnswer.isEmpty
      · unfold fuzzyMatch
        rw [hce, Bool.or_true, if_pos rfl]
      · have hue' : userAnswer.isEmpty = false := by simpa using hue
        have hce' : correctAnswer.isEmpty = false := by simpa using hce
        have hne : (normalizeString userAnswer == normalizeString correctAnswer)
            = false := by
          by_contra hcontra
          have hbeq : (normalizeString userAnswer == normalizeString correctAnswer)
              = true := by
            revert hcontra
            cases normalizeString userAnswer == normalizeString correctAnswer <;> simp
          have heq := eq_of_beq hbeq
          rw [heq] at hi1
          unfold jsIncludes at hi1
          rw [jsIncludesAux_refl] at hi1
          cases hi1
        simp only [fuzzyMatch, hue', hce', Bool.or_self, hne, hi1, hi2]
        rw [if_neg (by simp), if_neg (by simp), if_neg (by simp)]
        simp only [decide_eq_false_iff_not, not_le]
        omega

/-- Witness for C5: a 20-character pair at exactly 2 = floor(20/10) edits
matches; a 20-character pair at 5 = floor(20/10) + 3 edits with no
substring containment does not. -/
theorem fuzzyMatch_threshold_witness :
    fuzzyMatch "aaaaaaaaaaaaaaaaaabb" "aaaaaaaaaaaaaaaaaaaa" = true ∧
    fuzzyMatch "aaaaaaaaaaaaaaabbbbb" "aaaaaaaaaaaaaaaaaaaa" = false :=
  ⟨(fuzzyMatch_threshold "aaaaaaaaaaaaaaaaaabb" "aaaaaaaaaaaaaaaaaaaa").1
      (by decide) (by decide),
   (fuzzyMatch_threshold "aaaaaaaaaaaaaaabbbbb" "aaaaaaaaaaaaaaaaaaaa").2
      (by decide) (by decide) (by decide)⟩

/-- C5 counterexample: the normalized strings below (lengths 24 and 30,
so maxLen = 30) are at Levenshtein distance 6 = floor(30 × 0.1) + 3, yet
`fuzzyMatch` returns true because the shorter is a substring of the
longer — refuting the unconditional claim that distance
`floor(maxLen × 0.1) + 3` always fails. -/
theorem fuzzyMatch_threshold_claim_false :
    fuzzyMatch "abcdefghijklmnopqrstuvwx" "abcdefghijklmnopqrstuvwxyzabcd" = true ∧
    levenshteinDistance (normalizeString "abcdefghijklmnopqrstuvwx")
        (normalizeString "abcdefghijklmnopqrstuvwxyzabcd")
      = max (normalizeString "abcdefghijklmnopqrstuvwx").length
          (normalizeString "abcdefghijklmnopqrstuvwxyzabcd").length / 10 + 3 := by
  constructor
  · decide
  · decide

/-- C9: a non-empty user answer that normalizes to the empty string (for
example pure punctuation) matches every non-empty correct answer: the
emptiness guard inspects only the raw strings, and the empty normalized
string passes the substring-containment check against any string. -/
theorem fuzzyMatch_emptyNormalizedUser (userAnswer correctAnswer : String)
    (hu : userAnswer ≠ "") (hc : correctAnswer ≠ "")
    (hnorm : normalizeString userAnswer = "") :
    fuzzyMatch userAnswer correctAnswer = true := by
  have hue' : userAnswer.isEmpty = false := by
    rw [← Bool.not_eq_true]
    simpa [String.isEmpty_iff] using hu
  have hce' : correctAnswer.isEmpty = false := by
    rw [← Bool.not_eq_true]
    simpa [String.isEmpty_iff] using hc
  simp only [fuzzyMatch, hue', hce', Bool.or_self, hnorm]
  rw [if_neg (by simp)]
  by_cases heq : ("" == normalizeString correctAnswer) = true
  · rw [if_pos heq]
  · rw [if_neg heq]
    have hInc : jsIncludes (normalizeString correctAnswer) "" = true := by
      unfold jsIncludes
      exact jsIncludesAux_nil_sub _
    rw [hInc, Bool.or_true, if_pos rfl]

/-- Witness for C9: a punctuation-only answer matches an arbitrary
non-empty correct answer. -/
theorem fuzzyMatch_emptyNormalizedUser_witness :
    fuzzyMatch "?!" "answer" = true :=
  fuzzyMatch_emptyNormalizedUser "?!" "answer" (by decide) (by decide) (by decide)

/-! ## Response parser / validator (jsonParser) -/

/-- A parsed JSON value (the output of `JSON.parse` on the cleaned
response text).  Numbers are integers, which covers everything the
validator inspects. -/
inductive Js where
  | null
  | bool (b : Bool)
  | num (n : Int)
  | str (s : String)
  | arr (elems : List Js)
  | obj (fields : List (String × Js))

/-- JavaScript property access `value.field`: a missing field, or access
on a non-object, behaves as undefined (`none`); the validator treats it
the same way as any non-matching value, producing a validation error in
every case, exactly as the source does. -/
def Js.get : Js → String → Option Js
  | .obj fields, k => (fields.find? (fun f => f.1 == k)).map (fun f => f.2)
  | _, _ => none

/-- Holds exactly when an optional JSON value is present and is an array
(`Array.isArray`). -/
def isJsArray : Option Js → Bool
  | some (.arr _) => true
  | _ => false

/-- A validated flashcard: non-empty question and answer strings. -/
structure GeminiCard where
  question : String
  answer : String

/-- The validated flashcard response.  `tags` keeps the raw JSON
elements, since the source checks only that `tags` is an array and never
inspects its elements. -/
structure GeminiFlashcardResponse where
  title : String
  tags : List Js
  cards : List GeminiCard

/-- Validation of one card inside the `for` loop of
`parseFlashcardResponse`: `!card.question || typeof card.question !== "string"`
rejects everything except a non-empty string, and likewise for the answer. -/
def validateCard (card : Js) : Except String GeminiCard :=
  match card.get "question" with
  | some (.str q) =>
    if q.isEmpty then .error "Invalid flashcard response: card missing question"
    else
      match card.get "answer" with
      | some (.str a) =>
        if a.isEmpty then .error "Invalid flashcard response: card missing answer"
        else .ok { question := q, answer := a }
      | _ => .error "Invalid flashcard response: card missing answer"
  | _ => .error "Invalid flashcard response: card missing question"

/-- The card loop: stops at the first invalid card with its error. -/
def validateCards : List Js → Except String (List GeminiCard)
  | [] => .ok []
  | card :: rest =>
    match validateCard card with
    | .error e => .error e
    | .ok c =>
      match validateCards rest with
      | .error e => .error e
      | .ok cs => .ok (c :: cs)

/-- The tags defaulting step of the parser:
`if (!Array.isArray(parsed.tags)) parsed.tags = []`. -/
def tagsOrDefault (parsed : Js) : List Js :=
  match parsed.get "tags" with
  | some (.arr ts) => ts
  | _ => []

/-- Embedding of `parseFlashcardResponse` (jsonParser.ts) from the point
where `JSON.parse` succeeded on the fence-stripped text: title must be a
non-empty string, `cards` must be an array (no default), `tags` silently
defaults to the empty list when absent or not an array, and every card
must carry non-empty string question and answer.  Any violation is an
error, which the source wraps and rethrows, failing the request. -/
def parseFlashcardResponse (parsed : Js) : Except String GeminiFlashcardResponse :=
  match parsed.get "title" with
  | some (.str title) =>
    if title.isEmpty then .error "Invalid flashcard response: missing or invalid title"
    else
      match parsed.get "cards" with
      | some (.arr cards) =>
        match validateCards cards with
        | .ok validated =>
          .ok { title := title, tags := tagsOrDefault parsed, cards := validated }
        | .error e => .error e
      | _ => .error "Invalid flashcard response: cards must be an array"
  | _ => .error "Invalid flashcard response: missing or invalid title"

theorem validateCard_ok (j : Js) (c : GeminiCard)
    (h : validateCard j = .ok c) : c.question ≠ "" ∧ c.answer ≠ "" := by
  unfold validateCard at h
  split at h
  · split at h
    · exact Except.noConfusion h
    · split at h
      · split at h
        · exact Except.noConfusion h
        · injection h with h2
          subst h2
          simp only [String.isEmpty_iff] at *
          exact ⟨by assumption, by assumption⟩
      · exact Except.noConfusion h
  · exact Except.noConfusion h

theorem validateCards_mem (l : List Js) (out : List GeminiCard)
    (h : validateCards l = .ok out) :
    ∀ c ∈ out, c.question ≠ "" ∧ c.answer ≠ "" := by
  induction l generalizing out with
  | nil =>
    unfold validateCards at h
    injection h with h2
    subst h2
    intro c hc
    exact absurd hc (List.not_mem_nil c)
  | cons card rest ih =>
    unfold validateCards at h
    split at h
    · exact Except.noConfusion h
    · rename_i c0 hc0
      split at h
      · exact Except.noConfusion h
      · rename_i cs hcs
        injection h with h2
        subst h2
        intro c hc
        rcases List.mem_cons.mp hc with rfl | hmem
        · exact validateCard_ok card c hc0
        · exact ih cs hcs c hmem

/-- C6: if the parsed JSON has no `cards` field or a non-array one, the
parser produces a validation error (it never defaults `cards`); in
contrast a missing or non-array `tags` field is silently defaulted to the
empty list; and every card of an accepted response has a non-empty string
question and a non-empty string answer — any violation is an error, which
is fatal to the request. -/
theorem parseFlashcardResponse_spec :
    (∀ parsed : Js, isJsArray (parsed.get "cards") = false →
      ∃ e, parseFlashcardResponse parsed = Except.error e) ∧
    (∀ parsed r, parseFlashcardResponse parsed = Except.ok r →
      (isJsArray (parsed.get "tags") = false → r.tags = []) ∧
      ∀ card ∈ r.cards, card.question ≠ "" ∧ card.answer ≠ "") := by
  constructor
  · intro parsed hcards
    unfold parseFlashcardResponse
    split
    · split
      · exact ⟨_, rfl⟩
      · split
        · rename_i cards hcardsEq
          rw [hcardsEq] at hcards
          simp [isJsArray] at hcards
        · exact ⟨_, rfl⟩
    · exact ⟨_, rfl⟩
  · intro parsed r hok
    unfold parseFlashcardResponse at hok
    split at hok
    · split at hok
      · exact Except.noConfusion hok
      · split at hok
        · rename_i cards hcardsEq
          split at hok
          · rename_i validated hval
            injection hok with h2
            subst h2
            constructor
            · intro htags
              show tagsOrDefault parsed = []
              unfold tagsOrDefault
              split
              · rename_i ts htagsEq
                rw [htagsEq] at htags
                simp [isJsArray] at htags
              · rfl
            · intro card hc
              exact validateCards_mem cards validated hval card hc
          · exact Except.noConfusion hok
        · exact Except.noConfusion hok
    · exact Except.noConfusion hok

/-- Witness for C6: a response with title but no `cards` field is
rejected, and a well-formed response with no `tags` field parses with
`tags = []` and cards whose texts are non-empty. -/
theorem parseFlashcardResponse_spec_witness :
    (∃ e, parseFlashcardResponse (Js.obj [("title", Js.str "T")])
        = Except.error e) ∧
    (⟨"T", [], [⟨"q", "a"⟩]⟩ : GeminiFlashcardResponse).tags = [] ∧
    ∀ card ∈ (⟨"T", [], [⟨"q", "a"⟩]⟩ : GeminiFlashcardResponse).cards,
      card.question ≠ "" ∧ card.answer ≠ "" :=
  ⟨parseFlashcardResponse_spec.1 (Js.obj [("title", Js.str "T")]) rfl,
   (parseFlashcardResponse_spec.2
      (Js.obj [("title", Js.str "T"),
        ("cards", Js.arr [Js.obj [("question", Js.str "q"), ("answer", Js.str "a")]])])
      (⟨"T", [], [⟨"q", "a"⟩]⟩ : GeminiFlashcardResponse) rfl).1 rfl,
   (parseFlashcardResponse_spec.2
      (Js.obj [("title", Js.str "T"),
        ("cards", Js.arr [Js.obj [("question", Js.str "q"), ("answer", Js.str "a")]])])
      (⟨"T", [], [⟨"q", "a"⟩]⟩ : GeminiFlashcardResponse) rfl).2⟩

/-! ## Persistence layer, save-with-dedup (submissionHandler)

Firestore `Timestamp`s are modelled by their millisecond value (an `Int`,
what `toMillis()` returns); `Timestamp.now()` inside the transaction is
the explicit parameter `now`.  The body of `runTransaction` is a pure
function from the transactionally-read user document (`none` when the
document does not exist) to the written document and the returned
entity; Firestore serialises concurrent transactions on the same
document, so two near-simultaneous calls compose sequentially. -/

/-- A quiz answer: a string, or a list of strings for multiple-selection. -/
inductive AnswerVal where
  | s (v : String)
  | arr (vs : List String)

/-- `QuizQuestion` of types/index.ts. -/
structure QuizQuestion where
  type : String
  question : String
  answer : AnswerVal
  options : List String
  currentAnswer : AnswerVal

/-- `QuizData` of types/index.ts. -/
structure QuizData where
  title : String
  creationDate : Int
  isComplete : Bool
  lastAccessed : Int
  lastQuestionIndex : Nat
  score : Nat
  tags : List String
  questionsList : List QuizQuestion
  bookmarkedQuestions : List Nat

/-- The argument of `saveQuizToFirestore`:
`Omit<QuizData, "creationDate" | "lastAccessed" | "lastQuestionIndex" | "bookmarkedQuestions">`. -/
structure QuizInput where
  title : String
  isComplete : Bool
  score : Nat
  tags : List String
  questionsList : List QuizQuestion

/-- `Flashcard` of types/index.ts. -/
structure Flashcard where
  question : String
  answer : String
  status : String
  confidenceLevel : Int

/-- `FlashcardData` of types/index.ts. -/
structure FlashcardData where
  title : String
  tags : List String
  creationDate : Int
  lastReviewed : Int
  cards : List Flashcard

/-- The argument of `saveFlashcardToFirestore`:
`Omit<FlashcardData, "creationDate" | "lastReviewed">`. -/
structure FlashcardInput where
  title : String
  tags : List String
  cards : List Flashcard

/-- The `history` object of the per-user document. -/
structure UserHistory where
  flashcards : List FlashcardData
  quizzes : List QuizData

/-- The quiz object constructed inside the transaction: spread of the
input plus `creationDate = lastAccessed = now`, `lastQuestionIndex = 0`
and `bookmarkedQuestions = []`. -/
def mkQuiz (quizData : QuizInput) (now : Int) : QuizData :=
  { title := quizData.title
    isComplete := quizData.isComplete
    score := quizData.score
    tags := quizData.tags
    questionsList := quizData.questionsList
    creationDate := now
    lastAccessed := now
    lastQuestionIndex := 0
    bookmarkedQuestions := [] }

/-- The duplicate test of `saveQuizToFirestore`: same title, creation
timestamps closer than 5000 ms, and the same number of questions. -/
def quizDuplicateOf (quiz existingQuiz : QuizData) : Bool :=
  if existingQuiz.title != quiz.title then false
  else
    let timeDiff := (existingQuiz.creationDate - quiz.creationDate).natAbs
    let sameStructure :=
      existingQuiz.questionsList.length == quiz.questionsList.length
    decide (timeDiff < 5000) && sameStructure

/-- Embedding of the transaction body of `saveQuizToFirestore`
(submissionHandler.ts): read the user document; construct the quiz with
transaction-time timestamps; create a singleton history when the
document is absent; otherwise append, unless a duplicate exists, in
which case nothing is written and the first existing quiz with the same
title within 5000 ms is returned (falling back to the new quiz). -/
def saveQuizToFirestore (userDoc : Option UserHistory) (quizData : QuizInput)
    (now : Int) : Option UserHistory × QuizData :=
  let quiz := mkQuiz quizData now
  match userDoc with
  | none => (some { flashcards := [], quizzes := [quiz] }, quiz)
  | some userData =>
    let existingQuizzes := userData.quizzes
    let isDuplicate := existingQuizzes.any (fun eq0 => quizDuplicateOf quiz eq0)
    if !isDuplicate then
      (some { userData with quizzes := existingQuizzes ++ [quiz] }, quiz)
    else
      let duplicate := existingQuizzes.find? (fun eq0 =>
        eq0.title == quiz.title &&
          decide ((eq0.creationDate - quiz.creationDate).natAbs < 5000))
      (some userData, duplicate.getD quiz)

/-- The flashcard object constructed inside the transaction: spread of
the input plus `creationDate = lastReviewed = now`. -/
def mkFlashcard (flashcardData : FlashcardInput) (now : Int) : FlashcardData :=
  { title := flashcardData.title
    tags := flashcardData.tags
    cards := flashcardData.cards
    creationDate := now
    lastReviewed := now }

/-- The duplicate test of `saveFlashcardToFirestore`: same title,
creation timestamps closer than 5000 ms, and the same number of cards. -/
def flashcardDuplicateOf (flashcard existingFlashcard : FlashcardData) : Bool :=
  if existingFlashcard.title != flashcard.title then false
  else
    let timeDiff :=
      (existingFlashcard.creationDate - flashcard.creationDate).natAbs
    let sameStructure :=
      existingFlashcard.cards.length == flashcard.cards.length
    decide (timeDiff < 5000) && sameStructure

/-- Embedding of the transaction body of `saveFlashcardToFirestore`
(submissionHandler.ts), mirroring `saveQuizToFirestore`. -/
def saveFlashcardToFirestore (userDoc : Option UserHistory)
    (flashcardData : FlashcardInput) (now : Int) :
    Option UserHistory × FlashcardData :=
  let flashcard := mkFlashcard flashcardData now
  match userDoc with
  | none => (some { flashcards := [flashcard], quizzes := [] }, flashcard)
  | some userData =>
    let existingFlashcards := userData.flashcards
    let isDuplicate :=
      existingFlashcards.any (fun ef => flashcardDuplicateOf flashcard ef)
    if !isDuplicate then
      (some { userData with flashcards := existingFlashcards ++ [flashcard] },
       flashcard)
    else
      let duplicate := existingFlashcards.find? (fun ef =>
        ef.title == flashcard.title &&
          decide ((ef.creationDate - flashcard.creationDate).natAbs < 5000))
      (some userData, duplicate.getD flashcard)

theorem saveQuiz_dup (ud : UserHistory) (d : QuizInput) (now : Int)
    (hdup : ∃ q ∈ ud.quizzes, q.title = d.title ∧
      q.questionsList.length = d.questionsList.length ∧
      (q.creationDate - now).natAbs < 5000) :
    (saveQuizToFirestore (some ud) d now).1 = some ud ∧
    ∃ q ∈ ud.quizzes, (saveQuizToFirestore (some ud) d now).2 = q ∧
      q.title = d.title ∧ (q.creationDate - now).natAbs < 5000 := by
  obtain ⟨q0, hmem, ht, hlen, htime⟩ := hdup
  have hq : quizDuplicateOf (mkQuiz d now) q0 = true := by
    simp [quizDuplicateOf, mkQuiz, ht, hlen, htime]
  have hisdup : ud.quizzes.any (fun eq0 => quizDuplicateOf (mkQuiz d now) eq0)
      = true :=
    List.any_eq_true.mpr ⟨q0, hmem, hq⟩
  have hfind : ∃ qd, ud.quizzes.find? (fun eq0 =>
      eq0.title == (mkQuiz d now).title &&
        decide ((eq0.creationDate - (mkQuiz d now).creationDate).natAbs < 5000))
      = some qd := by
    cases hf : ud.quizzes.find? (fun eq0 =>
        eq0.title == (mkQuiz d now).title &&
          decide ((eq0.creationDate - (mkQuiz d now).creationDate).natAbs < 5000)) with
    | some qd => exact ⟨qd, rfl⟩
    | none =>
      exact absurd (by simp [mkQuiz, ht, htime])
        (List.find?_eq_none.mp hf q0 hmem)
  obtain ⟨qd, hqd⟩ := hfind
  have hqdpred := List.find?_some hqd
  simp only [mkQuiz, Bool.and_eq_true, beq_iff_eq, decide_eq_true_eq] at hqdpred
  simp only [saveQuizToFirestore, hisdup, Bool.not_true, if_neg, Bool.false_eq_true,
    not_false_eq_true, hqd, Option.getD_some]
  exact ⟨by trivial, qd, List.mem_of_find?_eq_some hqd, by trivial,
    hqdpred.1, hqdpred.2⟩

theorem saveQuiz_noDup (ud : UserHistory) (d : QuizInput) (now : Int)
    (hnod : ∀ q ∈ ud.quizzes, ¬(q.title = d.title ∧
      q.questionsList.length = d.questionsList.length ∧
      (q.creationDate - now).natAbs < 5000)) :
    saveQuizToFirestore (some ud) d now
      = (some { ud with quizzes := ud.quizzes ++ [mkQuiz d now] }, mkQuiz d now) := by
  have hisdup : ud.quizzes.any (fun eq0 => quizDuplicateOf (mkQuiz d now) eq0)
      = false := by
    rw [List.any_eq_false]
    intro q hqmem
    have hn := hnod q hqmem
    simp only [quizDuplicateOf, mkQuiz]
    by_cases ht : q.title = d.title
    · rw [if_neg (by simp [ht])]
      by_cases hlen : q.questionsList.length = d.questionsList.length
      · have htime : ¬((q.creationDate - now).natAbs < 5000) :=
          fun hc => hn ⟨ht, hlen, hc⟩
        simp [htime]
      · simp [hlen]
    · rw [if_pos (by simp [ht])]
      simp
  simp only [saveQuizToFirestore, hisdup, Bool.not_false, if_pos]

theorem saveQuiz_twice (ud : UserHistory) (d : QuizInput) (now1 now2 : Int)
    (htitle : ∀ q ∈ ud.quizzes, q.title ≠ d.title)
    (hclose : (now1 - now2).natAbs < 5000) :
    saveQuizToFirestore (some ud) d now1
      = (some { ud with quizzes := ud.quizzes ++ [mkQuiz d now1] }, mkQuiz d now1) ∧
    saveQuizToFirestore (saveQuizToFirestore (some ud) d now1).1 d now2
      = ((saveQuizToFirestore (some ud) d now1).1, mkQuiz d now1) := by
  have h1 := saveQuiz_noDup ud d now1 (fun q hq hcontra => htitle q hq hcontra.1)
  refine ⟨h1, ?_⟩
  rw [h1]
  have hdup2 : quizDuplicateOf (mkQuiz d now2) (mkQuiz d now1) = true := by
    simp [quizDuplicateOf, mkQuiz, hclose]
  have hisdup : (ud.quizzes ++ [mkQuiz d now1]).any
      (fun eq0 => quizDuplicateOf (mkQuiz d now2) eq0) = true :=
    List.any_eq_true.mpr ⟨mkQuiz d now1, by simp, hdup2⟩
  have hfindOld : ud.quizzes.find? (fun eq0 =>
      eq0.title == (mkQuiz d now2).title &&
        decide ((eq0.creationDate - (mkQuiz d now2).creationDate).natAbs < 5000))
      = none := by
    rw [List.find?_eq_none]
    intro q hq
    simp [mkQuiz, htitle q hq]
  have hfindNew : ([mkQuiz d now1] : List QuizData).find? (fun eq0 =>
      eq0.title == (mkQuiz d now2).title &&
        decide ((eq0.creationDate - (mkQuiz d now2).creationDate).natAbs < 5000))
      = some (mkQuiz d now1) := by
    simp [List.find?, mkQuiz, hclose]
  simp only [saveQuizToFirestore, hisdup, Bool.not_true, Bool.false_eq_true,
    not_false_eq_true, if_neg, List.find?_append, hfindOld, hfindNew,
    Option.none_or, Option.getD_some]

theorem saveFlashcard_dup (ud : UserHistory) (d : FlashcardInput) (now : Int)
    (hdup : ∃ f ∈ ud.flashcards, f.title = d.title ∧
      f.cards.length = d.cards.length ∧
      (f.creationDate - now).natAbs < 5000) :
    (saveFlashcardToFirestore (some ud) d now).1 = some ud ∧
    ∃ f ∈ ud.flashcards, (saveFlashcardToFirestore (some ud) d now).2 = f ∧
      f.title = d.title ∧ (f.creationDate - now).natAbs < 5000 := by
  obtain ⟨f0, hmem, ht, hlen, htime⟩ := hdup
  have hq : flashcardDuplicateOf (mkFlashcard d now) f0 = true := by
    simp [flashcardDuplicateOf, mkFlashcard, ht, hlen, htime]
  have hisdup : ud.flashcards.any
      (fun ef => flashcardDuplicateOf (mkFlashcard d now) ef) = true :=
    List.any_eq_true.mpr ⟨f0, hmem, hq⟩
  have hfind : ∃ fd, ud.flashcards.find? (fun ef =>
      ef.title == (mkFlashcard d now).title &&
        decide ((ef.creationDate - (mkFlashcard d now).creationDate).natAbs < 5000))
      = some fd := by
    cases hf : ud.flashcards.find? (fun ef =>
        ef.title == (mkFlashcard d now).title &&
          decide ((ef.creationDate - (mkFlashcard d now).creationDate).natAbs < 5000)) with
    | some fd => exact ⟨fd, rfl⟩
    | none =>
      exact absurd (by simp [mkFlashcard, ht, htime])
        (List.find?_eq_none.mp hf f0 hmem)
  obtain ⟨fd, hfd⟩ := hfind
  have hfdpred := List.find?_some hfd
  simp only [mkFlashcard, Bool.and_eq_true, beq_iff_eq, decide_eq_true_eq] at hfdpred
  simp only [saveFlashcardToFirestore, hisdup, Bool.not_true, if_neg,
    Bool.false_eq_true, not_false_eq_true, hfd, Option.getD_some]
  exact ⟨by trivial, fd, List.mem_of_find?_eq_some hfd, by trivial,
    hfdpred.1, hfdpred.2⟩

theorem saveFlashcard_noDup (ud : UserHistory) (d : FlashcardInput) (now : Int)
    (hnod : ∀ f ∈ ud.flashcards, ¬(f.title = d.title ∧
      f.cards.length = d.cards.length ∧
      (f.creationDate - now).natAbs < 5000)) :
    saveFlashcardToFirestore (some ud) d now
      = (some { ud with flashcards := ud.flashcards ++ [mkFlashcard d now] },
         mkFlashcard d now) := by
  have hisdup : ud.flashcards.any
      (fun ef => flashcardDuplicateOf (mkFlashcard d now) ef) = false := by
    rw [List.any_eq_false]
    intro f hfmem
    have hn := hnod f hfmem
    simp only [flashcardDuplicateOf, mkFlashcard]
    by_cases ht : f.title = d.title
    · rw [if_neg (by simp [ht])]
      by_cases hlen : f.cards.length = d.cards.length
      · have htime : ¬((f.creationDate - now).natAbs < 5000) :=
          fun hc => hn ⟨ht, hlen, hc⟩
        simp [htime]
      · simp [hlen]
    · rw [if_pos (by simp [ht])]
      simp
  simp only [saveFlashcardToFirestore, hisdup, Bool.not_false, if_pos]

theorem saveFlashcard_twice (ud : UserHistory) (d : FlashcardInput)
    (now1 now2 : Int)
    (htitle : ∀ f ∈ ud.flashcards, f.title ≠ d.title)
    (hclose : (now1 - now2).natAbs < 5000) :
    saveFlashcardToFirestore (some ud) d now1
      = (some { ud with flashcards := ud.flashcards ++ [mkFlashcard d now1] },
         mkFlashcard d now1) ∧
    saveFlashcardToFirestore (saveFlashcardToFirestore (some ud) d now1).1 d now2
      = ((saveFlashcardToFirestore (some ud) d now1).1, mkFlashcard d now1) := by
  have h1 := saveFlashcard_noDup ud d now1 (fun f hf hcontra => htitle f hf hcontra.1)
  refine ⟨h1, ?_⟩
  rw [h1]
  have hdup2 : flashcardDuplicateOf (mkFlashcard d now2) (mkFlashcard d now1)
      = true := by
    simp [flashcardDuplicateOf, mkFlashcard, hclose]
  have hisdup : (ud.flashcards ++ [mkFlashcard d now1]).any
      (fun ef => flashcardDuplicateOf (mkFlashcard d now2) ef) = true :=
    List.any_eq_true.mpr ⟨mkFlashcard d now1, by simp, hdup2⟩
  have hfindOld : ud.flashcards.find? (fun ef =>
      ef.title == (mkFlashcard d now2).title &&
        decide ((ef.creationDate - (mkFlashcard d now2).creationDate).natAbs < 5000))
      = none := by
    rw [List.find?_eq_none]
    intro f hf
    simp [mkFlashcard, htitle f hf]
  have hfindNew : ([mkFlashcard d now1] : List FlashcardData).find? (fun ef =>
      ef.title == (mkFlashcard d now2).title &&
        decide ((ef.creationDate - (mkFlashcard d now2).creationDate).natAbs < 5000))
      = some (mkFlashcard d now1) := by
    simp [List.find?, mkFlashcard, hclose]
  simp only [saveFlashcardToFirestore, hisdup, Bool.not_true, Bool.false_eq_true,
    not_false_eq_true, if_neg, List.find?_append, hfindOld, hfindNew,
    Option.none_or, Option.getD_some]

/-- C4: within the transaction, if an existing entity of the same kind
has the same title, the same item count and a creation timestamp closer
than 5000 ms to the new entity, nothing is appended and a pre-existing
entity (same title, within the window) is returned; otherwise the new
entity — carrying the transaction-time timestamps and, for quizzes,
`bookmarkedQuestions = []` — is appended.  Consequently, of two
near-simultaneous identical save calls, exactly one appends and the
second returns the entity persisted by the first. -/
theorem saveToFirestore_dedup_spec :
    (∀ (ud : UserHistory) (d : QuizInput) (now : Int),
      ((∃ q ∈ ud.quizzes, q.title = d.title ∧
          q.questionsList.length = d.questionsList.length ∧
          (q.creationDate - now).natAbs < 5000) →
        (saveQuizToFirestore (some ud) d now).1 = some ud ∧
        ∃ q ∈ ud.quizzes, (saveQuizToFirestore (some ud) d now).2 = q ∧
          q.title = d.title ∧ (q.creationDate - now).natAbs < 5000) ∧
      ((∀ q ∈ ud.quizzes, ¬(q.title = d.title ∧
          q.questionsList.length = d.questionsList.length ∧
          (q.creationDate - now).natAbs < 5000)) →
        saveQuizToFirestore (some ud) d now
          = (some { ud with quizzes := ud.quizzes ++ [mkQuiz d now] },
             mkQuiz d now) ∧
        (mkQuiz d now).creationDate = now ∧
        (mkQuiz d now).lastAccessed = now ∧
        (mkQuiz d now).bookmarkedQuestions = [])) ∧
    (∀ (ud : UserHistory) (d : QuizInput) (now1 now2 : Int),
      (∀ q ∈ ud.quizzes, q.title ≠ d.title) →
      (now1 - now2).natAbs < 5000 →
      saveQuizToFirestore (some ud) d now1
        = (some { ud with quizzes := ud.quizzes ++ [mkQuiz d now1] },
           mkQuiz d now1) ∧
      saveQuizToFirestore (saveQuizToFirestore (some ud) d now1).1 d now2
        = ((saveQuizToFirestore (some ud) d now1).1, mkQuiz d now1)) ∧
    (∀ (ud : UserHistory) (d : FlashcardInput) (now : Int),
      ((∃ f ∈ ud.flashcards, f.title = d.title ∧
          f.cards.length = d.cards.length ∧
          (f.creationDate - now).natAbs < 5000) →
        (saveFlashcardToFirestore (some ud) d now).1 = some ud ∧
        ∃ f ∈ ud.flashcards, (saveFlashcardToFirestore (some ud) d now).2 = f ∧
          f.title = d.title ∧ (f.creationDate - now).natAbs < 5000) ∧
      ((∀ f ∈ ud.flashcards, ¬(f.title = d.title ∧
          f.cards.length = d.cards.length ∧
          (f.creationDate - now).natAbs < 5000)) →
        saveFlashcardToFirestore (some ud) d now
          = (some { ud with flashcards := ud.flashcards ++ [mkFlashcard d now] },
             mkFlashcard d now) ∧
        (mkFlashcard d now).creationDate = now ∧
        (mkFlashcard d now).lastReviewed = now)) ∧
    (∀ (ud : UserHistory) (d : FlashcardInput) (now1 now2 : Int),
      (∀ f ∈ ud.flashcards, f.title ≠ d.title) →
      (now1 - now2).natAbs < 5000 →
      saveFlashcardToFirestore (some ud) d now1
        = (some { ud with flashcards := ud.flashcards ++ [mkFlashcard d now1] },
           mkFlashcard d now1) ∧
      saveFlashcardToFirestore (saveFlashcardToFirestore (some ud) d now1).1 d now2
        = ((saveFlashcardToFirestore (some ud) d now1).1, mkFlashcard d now1)) := by
  refine ⟨?_, ?_, ?_, ?_⟩
  · intro ud d now
    exact ⟨saveQuiz_dup ud d now,
      fun h => ⟨saveQuiz_noDup ud d now h, rfl, rfl, rfl⟩⟩
  · intro ud d now1 now2 h1 h2
    exact saveQuiz_twice ud d now1 now2 h1 h2
  · intro ud d now
    exact ⟨saveFlashcard_dup ud d now,
      fun h => ⟨saveFlashcard_noDup ud d now h, rfl, rfl⟩⟩
  · intro ud d now1 now2 h1 h2
    exact saveFlashcard_twice ud d now1 now2 h1 h2

/-- Witness for C4: starting from an empty history, the double-save
scenario for a quiz and for a flashcard set: the second call performs no
append and returns the first call's entity. -/
theorem saveToFirestore_dedup_spec_witness :
    saveQuizToFirestore
        (saveQuizToFirestore (some ⟨[], []⟩) ⟨"T", false, 0, [], []⟩ 1000).1
        ⟨"T", false, 0, [], []⟩ 2000
      = ((saveQuizToFirestore (some ⟨[], []⟩) ⟨"T", false, 0, [], []⟩ 1000).1,
         mkQuiz ⟨"T", false, 0, [], []⟩ 1000) ∧
    saveFlashcardToFirestore
        (saveFlashcardToFirestore (some ⟨[], []⟩) ⟨"T", [], []⟩ 1000).1
        ⟨"T", [], []⟩ 2000
      = ((saveFlashcardToFirestore (some ⟨[], []⟩) ⟨"T", [], []⟩ 1000).1,
         mkFlashcard ⟨"T", [], []⟩ 1000) :=
  ⟨(saveToFirestore_dedup_spec.2.1 ⟨[], []⟩ ⟨"T", false, 0, [], []⟩ 1000 2000
      (by simp) (by decide)).2,
   (saveToFirestore_dedup_spec.2.2.2 ⟨[], []⟩ ⟨"T", [], []⟩ 1000 2000
      (by simp) (by decide)).2⟩

/-! ## Chunk cleanup (pdfSplitter / documentAIService) -/

/-- The local filesystem as the cleanup routine sees it: which paths
exist (`fs.existsSync`) and which `fs.unlinkSync` calls throw. -/
structure FsState where
  fileOnDisk : String → Bool
  unlinkThrows : String → Bool

/-- Embedding of `cleanupPdfChunks` (pdfSplitter.ts): for each path, if
the file exists and the path contains `_chunk_`, attempt to delete it;
an error is caught and logged and the loop continues.  Returns the
successfully deleted paths and the paths whose deletion raised. -/
def cleanupPdfChunks (fs : FsState) (chunkPaths : List String) :
    List String × List String :=
  chunkPaths.foldl
    (fun (acc : List String × List String) chunkPath =>
      if fs.fileOnDisk chunkPath && jsIncludes chunkPath "_chunk_" then
        if fs.unlinkThrows chunkPath then (acc.1, acc.2 ++ [chunkPath])
        else (acc.1 ++ [chunkPath], acc.2)
      else acc)
    ([], [])

/-- The chunk-path list the OCR adapter keeps for cleanup
(documentAIService.ts): the splitter output with the original file path
filtered out, `chunks.filter((chunk) => chunk !== filePath)`. -/
def pdfChunkPathsOf {α : Type} (filePath : String)
    (chunks : List (PdfChunk α)) : List String :=
  (chunks.map (fun c => c.path)).filter (fun c => c != filePath)

theorem cleanupFold (fs : FsState) : ∀ (paths : List String) (d e : List String),
    paths.foldl
      (fun (acc : List String × List String) chunkPath =>
        if fs.fileOnDisk chunkPath && jsIncludes chunkPath "_chunk_" then
          if fs.unlinkThrows chunkPath then (acc.1, acc.2 ++ [chunkPath])
          else (acc.1 ++ [chunkPath], acc.2)
        else acc)
      (d, e)
    = (d ++ paths.filter (fun p => fs.fileOnDisk p && jsIncludes p "_chunk_"
          && !fs.unlinkThrows p),
       e ++ paths.filter (fun p => fs.fileOnDisk p && jsIncludes p "_chunk_"
          && fs.unlinkThrows p)) := by
  intro paths
  induction paths with
  | nil => intro d e; simp
  | cons p rest ih =>
    intro d e
    rw [List.foldl_cons]
    by_cases h1 : (fs.fileOnDisk p && jsIncludes p "_chunk_") = true
    · by_cases h2 : fs.unlinkThrows p = true
      · rw [if_pos h1, if_pos h2, ih]
        simp [List.filter_cons, h1, h2]
      · have h2f : fs.unlinkThrows p = false := by
          revert h2; cases fs.unlinkThrows p <;> simp
        rw [if_pos h1, if_neg (by simp [h2f]), ih]
        simp [List.filter_cons, h1, h2f]
    · have h1f : (fs.fileOnDisk p && jsIncludes p "_chunk_") = false := by
        revert h1; cases (fs.fileOnDisk p && jsIncludes p "_chunk_") <;> simp
      rw [if_neg (by simp [h1f]), ih]
      simp [List.filter_cons, h1f]

theorem cleanupPdfChunks_eq (fs : FsState) (paths : List String) :
    cleanupPdfChunks fs paths
      = (paths.filter (fun p => fs.fileOnDisk p && jsIncludes p "_chunk_"
            && !fs.unlinkThrows p),
         paths.filter (fun p => fs.fileOnDisk p && jsIncludes p "_chunk_"
            && fs.unlinkThrows p)) := by
  unfold cleanupPdfChunks
  rw [cleanupFold]
  simp

/-- C10: chunk cleanup deletes exactly the paths that exist, contain
`_chunk_`, and whose deletion does not raise — so only `_chunk_` paths
are ever deleted, missing files are skipped silently (no error logged),
and one path's deletion error never affects the processing of the other
paths (each path's outcome depends on that path alone); and the original
source PDF, which the OCR adapter filters out of the chunk list, is
never deleted by chunk cleanup. -/
theorem cleanupPdfChunks_spec :
    (∀ (fs : FsState) (paths : List String),
      (cleanupPdfChunks fs paths).1
        = paths.filter (fun p => fs.fileOnDisk p && jsIncludes p "_chunk_"
            && !fs.unlinkThrows p)) ∧
    (∀ (fs : FsState) (paths : List String) (p : String),
      p ∈ (cleanupPdfChunks fs paths).1 → jsIncludes p "_chunk_" = true) ∧
    (∀ (fs : FsState) (paths : List String) (p : String),
      fs.fileOnDisk p = false →
      p ∉ (cleanupPdfChunks fs paths).1 ∧ p ∉ (cleanupPdfChunks fs paths).2) ∧
    (∀ (fs : FsState) (paths : List String) (p : String),
      p ∈ paths → fs.fileOnDisk p = true → jsIncludes p "_chunk_" = true →
      fs.unlinkThrows p = false → p ∈ (cleanupPdfChunks fs paths).1) ∧
    (∀ (α : Type) (filePath tempDir baseFileName : String) (ts : Nat)
        (pages : List α) (fs : FsState),
      filePath ∉ pdfChunkPathsOf filePath
          (splitPdfIntoChunks filePath tempDir baseFileName ts pages) ∧
      filePath ∉ (cleanupPdfChunks fs (pdfChunkPathsOf filePath
          (splitPdfIntoChunks filePath tempDir baseFileName ts pages))).1) := by
  have hmain := cleanupPdfChunks_eq
  refine ⟨?_, ?_, ?_, ?_, ?_⟩
  · intro fs paths
    rw [hmain]
  · intro fs paths p hp
    rw [hmain] at hp
    have := (List.mem_filter.mp hp).2
    simp only [Bool.and_eq_true] at this
    exact this.1.2
  · intro fs paths p hdisk
    constructor <;>
      · rw [hmain]
        simp [List.mem_filter, hdisk]
  · intro fs paths p hp h1 h2 h3
    rw [hmain]
    exact List.mem_filter.mpr ⟨hp, by simp [h1, h2, h3]⟩
  · intro α filePath tempDir baseFileName ts pages fs
    have hnotin : filePath ∉ pdfChunkPathsOf filePath
        (splitPdfIntoChunks filePath tempDir baseFileName ts pages) := by
      intro hmem
      unfold pdfChunkPathsOf at hmem
      have := (List.mem_filter.mp hmem).2
      simp at this
    refine ⟨hnotin, ?_⟩
    intro hmem
    rw [hmain] at hmem
    exact hnotin (List.mem_filter.mp hmem).1

/-- Witness for C10 at a concrete filesystem: a deleted path contains
`_chunk_`; a missing path is neither deleted nor error-logged; a healthy
chunk path is deleted even when listed beside others. -/
theorem cleanupPdfChunks_spec_witness :
    jsIncludes "/tmp/a_chunk_1_of_2_7.pdf" "_chunk_" = true ∧
    ("gone.pdf" ∉ (cleanupPdfChunks ⟨fun p => p != "gone.pdf", fun _ => false⟩
        ["/tmp/a_chunk_1_of_2_7.pdf", "gone.pdf"]).1 ∧
     "gone.pdf" ∉ (cleanupPdfChunks ⟨fun p => p != "gone.pdf", fun _ => false⟩
        ["/tmp/a_chunk_1_of_2_7.pdf", "gone.pdf"]).2) ∧
    "/tmp/a_chunk_1_of_2_7.pdf" ∈ (cleanupPdfChunks
        ⟨fun _ => true, fun p => p == "orig.pdf"⟩
        ["orig.pdf", "/tmp/a_chunk_1_of_2_7.pdf"]).1 :=
  ⟨cleanupPdfChunks_spec.2.1 ⟨fun _ => true, fun _ => false⟩
      ["/tmp/a_chunk_1_of_2_7.pdf"] "/tmp/a_chunk_1_of_2_7.pdf" (by decide),
   cleanupPdfChunks_spec.2.2.1 ⟨fun p => p != "gone.pdf", fun _ => false⟩
      ["/tmp/a_chunk_1_of_2_7.pdf", "gone.pdf"] "gone.pdf" (by decide),
   cleanupPdfChunks_spec.2.2.2.1 ⟨fun _ => true, fun p => p == "orig.pdf"⟩
      ["orig.pdf", "/tmp/a_chunk_1_of_2_7.pdf"] "/tmp/a_chunk_1_of_2_7.pdf"
      (by decide) (by decide) (by decide) (by decide)⟩

/-! ## Pipeline orchestrator (functions/src/index.ts, processNotes)

External services (storage upload/download, Document AI, Gemini) are an
environment of call-result functions; a call that would throw returns
`Except.error`.  The cleanup helpers (`cleanupTempFile`,
`deleteFileFromStorage`) live in a separate `CleanupBehavior`, and the
cleanup loop is recorded as a list of effects, since its outcome never
flows back into the result. -/

/-- One request file, as received from the client. -/
structure FileData where
  name : String
  type : String
  base64 : String

/-- The `processNotes` request body. -/
structure ProcessNotesRequest where
  files : List FileData
  selectionType : String
  numberOfItems : Int
  quizQuestionTypes : Option (List String)
  notes : Option String

/-- A thrown `HttpsError`: status code plus message. -/
structure HttpsError where
  code : String
  message : String
deriving DecidableEq

/-- What `downloadFileFromStorage` resolves to. -/
structure DownloadInfo where
  filePath : String
  fileName : String
  mimeType : String
deriving DecidableEq

/-- A downloaded file as tracked by the orchestrator: the download
result plus the storage URL it came from. -/
structure DownloadedFile where
  filePath : String
  fileName : String
  mimeType : String
  storageUrl : String
deriving DecidableEq

/-- One element of `extractedFiles`. -/
structure ExtractedFileData where
  fileName : String
  fileType : String
  textContent : String
deriving DecidableEq

/-- Results of the awaited external calls during one request. -/
structure PipelineEnv where
  authUid : Option String
  processorIdConfigured : Bool
  uploadResult : FileData → Except String String
  downloadResult : String → Except String DownloadInfo
  extractTextResult : String → Except String String
  fileToBase64Result : String → Except String String
  understandDiagramResult : String → String → Except String String
  generateFlashcardsResult : String → Int → Option String → Except String String
  generateQuizResult : String → Int → List String → Option String → Except String String

/-- Which cleanup calls throw (storageService helpers). -/
structure CleanupBehavior where
  cleanupTempThrows : String → Bool
  deleteStorageThrows : String → Bool

/-- Observable actions of the cleanup loop. -/
inductive CleanupEffect where
  | cleanedTemp (path : String)
  | deletedStorage (url : String)
  | cleanupErrorLogged (fileName : String)
deriving DecidableEq

/-- A character of the base64 alphabet, `[A-Za-z0-9+/=]`. -/
def isBase64Char (c : Char) : Bool :=
  c.isAlphanum || c = '+' || c = '/' || c = '='

/-- The validation regex `/^[A-Za-z0-9+/=]+$/` applied to
`file.base64.trim()`: non-empty and all characters in the alphabet. -/
def base64Ok (s : String) : Bool :=
  let t := trimChars s.data
  !t.isEmpty && t.all isBase64Char

/-- The per-file validation loop body (first failing check wins). -/
def fileError (f : FileData) : Option HttpsError :=
  if f.name.isEmpty || f.type.isEmpty || f.base64.isEmpty then
    some ⟨"invalid-argument", "Each file must have name, type, and base64 data"⟩
  else if !(f.type == "pdf" || f.type == "image") then
    some ⟨"invalid-argument", "File type must be pdf or image"⟩
  else if !base64Ok f.base64 then
    some ⟨"invalid-argument", "Invalid base64 data format"⟩
  else if 3 * f.base64.length > 4 * (24 * 1024 * 1024) then
    some ⟨"invalid-argument",
      "File " ++ f.name ++ " is too large. Maximum size is 24MB."⟩
  else
    none

/-- The pre-flight validation of `processNotes` (including the
`GCP_PROCESSOR_ID` check required when any PDF is present); `none` means
the request is valid.  The size comparison `(len * 3) / 4 > 24MB` is
exact in floating point for all representable lengths and is written as
`3 * len > 4 * 24MB`. -/
def validateRequest (processorIdConfigured : Bool)
    (data : ProcessNotesRequest) : Option HttpsError :=
  if data.files.isEmpty then
    some ⟨"invalid-argument", "At least one file is required"⟩
  else if !(data.selectionType == "flashcard" || data.selectionType == "quiz") then
    some ⟨"invalid-argument", "selectionType must be flashcard or quiz"⟩
  else if data.numberOfItems ≤ 0 then
    some ⟨"invalid-argument", "numberOfItems must be greater than 0"⟩
  else if data.selectionType == "quiz" &&
      (match data.quizQuestionTypes with
        | none => true
        | some l => l.isEmpty) then
    some ⟨"invalid-argument", "quizQuestionTypes is required for quiz type"⟩
  else
    match data.files.findSome? fileError with
    | some e => some e
    | none =>
      if data.files.any (fun f => f.type == "pdf") && !processorIdConfigured then
        some ⟨"failed-precondition", "Document AI processor ID not configured"⟩
      else
        none

/-- Step 1: the upload loop; the first failing upload aborts the request. -/
def uploadAll (env : PipelineEnv) : List FileData → Except HttpsError (List String)
  | [] => .ok []
  | f :: rest =>
    match env.uploadResult f with
    | .error e =>
      .error ⟨"internal", "Failed to upload file " ++ f.name ++ ": " ++ e⟩
    | .ok url =>
      match uploadAll env rest with
      | .error e => .error e
      | .ok urls => .ok (url :: urls)

/-- Step 2: the download loop; the first failing download aborts the
request (the `fs.existsSync` verification is part of the download
call's failure modes). -/
def downloadAll (env : PipelineEnv) :
    List String → Except HttpsError (List DownloadedFile)
  | [] => .ok []
  | url :: rest =>
    match env.downloadResult url with
    | .error e => .error ⟨"internal", "Failed to download file: " ++ e⟩
    | .ok info =>
      match downloadAll env rest with
      | .error e => .error e
      | .ok files =>
        .ok ({ filePath := info.filePath, fileName := info.fileName,
               mimeType := info.mimeType, storageUrl := url } :: files)

/-- Step 3, one file: Document AI extraction.  A PDF whose extraction
throws, or yields empty text, is fatal; any other file falls back to an
empty contribution on extraction failure. -/
def extractOne (env : PipelineEnv) (file : DownloadedFile) :
    Except HttpsError ExtractedFileData :=
  match env.extractTextResult file.filePath with
  | .ok text =>
    if file.mimeType == "application/pdf" && (trimChars text.data).isEmpty then
      .error ⟨"internal", "Failed to extract text from PDF file " ++ file.fileName⟩
    else
      .ok ⟨file.fileName, file.mimeType, text⟩
  | .error _ =>
    if file.mimeType == "application/pdf" then
      .error ⟨"internal", "Failed to extract text from PDF file " ++ file.fileName⟩
    else
      .ok ⟨file.fileName, file.mimeType, ""⟩

/-- Step 3: the extraction loop. -/
def extractAll (env : PipelineEnv) :
    List DownloadedFile → Except HttpsError (List ExtractedFileData)
  | [] => .ok []
  | f :: rest =>
    match extractOne env f with
    | .error e => .error e
    | .ok x =>
      match extractAll env rest with
      | .error e => .error e
      | .ok xs => .ok (x :: xs)

/-- Step 4, one file: the text this file contributes.  PDFs must carry
non-empty text (fatal otherwise); images route through the diagram
classifier with fallback to OCR text, never fatally; other types
contribute their text when non-empty. -/
def fileContribution (env : PipelineEnv) (file : ExtractedFileData)
    (downloadedFile : DownloadedFile) : Except HttpsError (List String) :=
  let textFallback : List String :=
    if !(trimChars file.textContent.data).isEmpty then [file.textContent] else []
  if file.fileType == "application/pdf" then
    if !(trimChars file.textContent.data).isEmpty then
      .ok [file.textContent]
    else
      .error ⟨"internal",
        "No text could be extracted from PDF file " ++ file.fileName⟩
  else if imageTypes.contains (jsToLower file.fileType) then
    if shouldUseDiagramUnderstanding file.fileType file.textContent then
      match env.fileToBase64Result downloadedFile.filePath with
      | .error _ => .ok textFallback
      | .ok imageBase64 =>
        if imageBase64.isEmpty then
          .ok textFallback
        else
          match env.understandDiagramResult imageBase64 file.fileType with
          | .ok diagramDescription =>
            if !(trimChars diagramDescription.data).isEmpty then
              .ok [diagramDescription]
            else
              .ok textFallback
          | .error _ => .ok textFallback
    else
      .ok textFallback
  else
    .ok textFallback

/-- Step 4: the contribution loop over the paired extraction and
download records. -/
def collectTexts (env : PipelineEnv) :
    List (ExtractedFileData × DownloadedFile) → Except HttpsError (List String)
  | [] => .ok []
  | (f, df) :: rest =>
    match fileContribution env f df with
    | .error e => .error e
    | .ok texts =>
      match collectTexts env rest with
      | .error e => .error e
      | .ok more => .ok (texts ++ more)

/-- Step 5: generation dispatch; a generator failure is wrapped by the
outer catch as an internal error. -/
def generateStage (env : PipelineEnv) (selectionType : String)
    (numberOfItems : Int) (quizQuestionTypes : List String)
    (notes : Option String) (combinedText : String) :
    Except HttpsError String :=
  if selectionType == "flashcard" then
    match env.generateFlashcardsResult combinedText numberOfItems notes with
    | .ok r => .ok r
    | .error e => .error ⟨"internal", "Failed to process notes: " ++ e⟩
  else
    match env.generateQuizResult combinedText numberOfItems quizQuestionTypes notes with
    | .ok r => .ok r
    | .error e => .error ⟨"internal", "Failed to process notes: " ++ e⟩

/-- The stages of `processNotes` up to and including generation: the
value is the generated result together with the downloaded files that
the success-path cleanup will walk. -/
def processNotesCore (env : PipelineEnv) (data : ProcessNotesRequest) :
    Except HttpsError (String × List DownloadedFile) :=
  match env.authUid with
  | none => .error ⟨"unauthenticated", "User must be authenticated"⟩
  | some _ =>
    match validateRequest env.processorIdConfigured data with
    | some e => .error e
    | none =>
      match uploadAll env data.files with
      | .error e => .error e
      | .ok uploadedFileUrls =>
        match downloadAll env uploadedFileUrls with
        | .error e => .error e
        | .ok downloadedFiles =>
          if downloadedFiles.isEmpty then
            .error ⟨"internal", "No files were successfully downloaded from Storage"⟩
          else
            match extractAll env downloadedFiles with
            | .error e => .error e
            | .ok extractedFiles =>
              match collectTexts env (extractedFiles.zip downloadedFiles) with
              | .error e => .error e
              | .ok allTexts =>
                if (trimChars (String.intercalate "\n\n" allTexts).data).isEmpty then
                  .error ⟨"invalid-argument",
                    "No text could be extracted from the provided files"⟩
                else
                  match generateStage env data.selectionType data.numberOfItems
                      (data.quizQuestionTypes.getD []) data.notes
                      (String.intercalate "\n\n" allTexts) with
                  | .error e => .error e
                  | .ok result => .ok (result, downloadedFiles)

/-- The cleanup loop body for one file: `cleanupTempFile` then
`deleteFileFromStorage`, both inside one try whose catch only logs, so a
temp-file failure skips that file's storage deletion and a failure never
stops the loop. -/
def cleanupOne (cb : CleanupBehavior) (file : DownloadedFile) : List CleanupEffect :=
  if cb.cleanupTempThrows file.filePath then
    [.cleanupErrorLogged file.fileName]
  else if cb.deleteStorageThrows file.storageUrl then
    [.cleanedTemp file.filePath, .cleanupErrorLogged file.fileName]
  else
    [.cleanedTemp file.filePath, .deletedStorage file.storageUrl]

/-- The success-path cleanup loop over all downloaded files. -/
def runCleanup (cb : CleanupBehavior) (files : List DownloadedFile) :
    List CleanupEffect :=
  (files.map (cleanupOne cb)).flatten

/-- Embedding of the whole `processNotes` handler: the staged pipeline,
then — only when every stage succeeded — the cleanup loop; the catch
block reports the error without performing any cleanup. -/
def processNotes (env : PipelineEnv) (cb : CleanupBehavior)
    (data : ProcessNotesRequest) :
    Except HttpsError String × List CleanupEffect :=
  match processNotesCore env data with
  | .error e => (.error e, [])
  | .ok (result, downloadedFiles) => (.ok result, runCleanup cb downloadedFiles)

/-- C2 (amended): cleanup runs only on the success path.  When any stage
fails, the error is reported with no cleanup performed; when every stage
succeeds, the cleanup loop walks every downloaded file — deleting its
temp file and its storage artifact whenever those calls do not throw,
logging a cleanup error otherwise — and failures inside cleanup are
logged only and never escalated: the request result is independent of
which cleanup calls throw. -/
theorem processNotes_cleanup_spec :
    (∀ (env : PipelineEnv) (cb : CleanupBehavior) (data : ProcessNotesRequest)
        (e : HttpsError),
      processNotesCore env data = .error e →
      processNotes env cb data = (.error e, [])) ∧
    (∀ (env : PipelineEnv) (cb : CleanupBehavior) (data : ProcessNotesRequest)
        (result : String) (files : List DownloadedFile),
      processNotesCore env data = .ok (result, files) →
      processNotes env cb data = (.ok result, runCleanup cb files)) ∧
    (∀ (cb : CleanupBehavior) (files : List DownloadedFile) (f : DownloadedFile),
      f ∈ files →
      (cb.cleanupTempThrows f.filePath = false →
        CleanupEffect.cleanedTemp f.filePath ∈ runCleanup cb files ∧
        (cb.deleteStorageThrows f.storageUrl = false →
          CleanupEffect.deletedStorage f.storageUrl ∈ runCleanup cb files)) ∧
      (cb.cleanupTempThrows f.filePath = true →
        CleanupEffect.cleanupErrorLogged f.fileName ∈ runCleanup cb files)) ∧
    (∀ (env : PipelineEnv) (cb cb2 : CleanupBehavior) (data : ProcessNotesRequest),
      (processNotes env cb data).1 = (processNotes env cb2 data).1) := by
  refine ⟨?_, ?_, ?_, ?_⟩
  · intro env cb data e h
    unfold processNotes
    rw [h]
  · intro env cb data result files h
    unfold processNotes
    rw [h]
  · intro cb files f hmem
    have hsub : ∀ x ∈ cleanupOne cb f, x ∈ runCleanup cb files := by
      intro x hx
      unfold runCleanup
      exact List.mem_flatten.mpr ⟨cleanupOne cb f, List.mem_map_of_mem _ hmem, hx⟩
    constructor
    · intro ht
      constructor
      · apply hsub
        unfold cleanupOne
        rw [if_neg (by simp [ht])]
        split <;> simp
      · intro hs
        apply hsub
        unfold cleanupOne
        rw [if_neg (by simp [ht]), if_neg (by simp [hs])]
        simp
    · intro ht
      apply hsub
      unfold cleanupOne
      rw [if_pos ht]
      simp
  · intro env cb cb2 data
    unfold processNotes
    cases processNotesCore env data with
    | error e => rfl
    | ok v => rfl

/-- A pipeline environment in which every external call succeeds except
Document AI extraction. -/
def envExtractFails : PipelineEnv :=
  { authUid := some "user1"
    processorIdConfigured := true
    uploadResult := fun f => .ok ("gs://bucket/" ++ f.name)
    downloadResult := fun _ =>
      .ok ⟨"/tmp/notes.pdf", "notes.pdf", "application/pdf"⟩
    extractTextResult := fun _ => .error "Document AI unavailable"
    fileToBase64Result := fun _ => .ok ""
    understandDiagramResult := fun _ _ => .error "not reached"
    generateFlashcardsResult := fun _ _ _ => .ok "generated"
    generateQuizResult := fun _ _ _ _ => .ok "generated" }

/-- A well-formed single-PDF flashcard request. -/
def reqOnePdf : ProcessNotesRequest :=
  { files := [⟨"notes.pdf", "pdf", "QUJD"⟩]
    selectionType := "flashcard"
    numberOfItems := 5
    quizQuestionTypes := none
    notes := none }

/-- C2 counterexample: a request whose upload and download stages
succeed (one temp file on disk, one storage artifact uploaded) and whose
extraction stage then fails reports the error with an empty cleanup
effect list — the downloaded temp file is not deleted and the uploaded
artifact is not removed, refuting the claim that cleanup is attempted
regardless of which stage fails. -/
theorem processNotes_cleanup_claim_false :
    uploadAll envExtractFails reqOnePdf.files = .ok ["gs://bucket/notes.pdf"] ∧
    downloadAll envExtractFails ["gs://bucket/notes.pdf"]
      = .ok [⟨"/tmp/notes.pdf", "notes.pdf", "application/pdf",
             "gs://bucket/notes.pdf"⟩] ∧
    processNotes envExtractFails ⟨fun _ => false, fun _ => false⟩ reqOnePdf
      = (.error ⟨"internal", "Failed to extract text from PDF file notes.pdf"⟩,
         []) := by
  refine ⟨rfl, rfl, ?_⟩
  rfl

/-- Witness for C2 (amended) on the same concrete request with a working
extractor: the success path emits exactly the per-file cleanup effects,
and a throwing storage deletion changes the emitted effects but not the
result. -/
def envAllOk : PipelineEnv :=
  { envExtractFails with extractTextResult := fun _ => .ok "lecture notes text" }

theorem processNotes_cleanup_spec_witness :
    processNotes envAllOk ⟨fun _ => false, fun _ => false⟩ reqOnePdf
      = (.ok "generated",
         [.cleanedTemp "/tmp/notes.pdf", .deletedStorage "gs://bucket/notes.pdf"]) ∧
    CleanupEffect.cleanedTemp "/tmp/notes.pdf"
      ∈ runCleanup ⟨fun _ => false, fun _ => false⟩
          [⟨"/tmp/notes.pdf", "notes.pdf", "application/pdf", "gs://bucket/notes.pdf"⟩] ∧
    (processNotes envAllOk ⟨fun _ => false, fun _ => true⟩ reqOnePdf).1
      = (processNotes envAllOk ⟨fun _ => false, fun _ => false⟩ reqOnePdf).1 :=
  ⟨by
    have h := processNotes_cleanup_spec.2.1 envAllOk
      ⟨fun _ => false, fun _ => false⟩ reqOnePdf "generated"
      [⟨"/tmp/notes.pdf", "notes.pdf", "application/pdf", "gs://bucket/notes.pdf"⟩]
      (by rfl)
    rw [h]
    rfl,
   ((processNotes_cleanup_spec.2.2.1 ⟨fun _ => false, fun _ => false⟩
      [⟨"/tmp/notes.pdf", "notes.pdf", "application/pdf", "gs://bucket/notes.pdf"⟩]
      ⟨"/tmp/notes.pdf", "notes.pdf", "application/pdf", "gs://bucket/notes.pdf"⟩
      (by simp) ).1 (by rfl)).1,
   processNotes_cleanup_spec.2.2.2 envAllOk
      ⟨fun _ => false, fun _ => true⟩ ⟨fun _ => false, fun _ => false⟩ reqOnePdf⟩

end FlashQuiz
